import Mathlib

/-!
Shallow embedding of the raillabel schema-mapping core
(`src/raillabel/format/frame.py`, `src/raillabel/format/poly3d.py`).

Record trees (JSON-like values) are modelled by `JValue`; Python dicts are
association lists with Python insertion-order semantics (`dinsert` updates in
place, `ddelete` removes the binding, `dlookup` finds the value).
-/

/-- A generic nested record value: the JSON-like trees the codec consumes and
produces.  Dictionary keys in the schema are strings. -/
inductive JValue where
  | null : JValue
  | bool : Bool → JValue
  | int : Int → JValue
  | str : String → JValue
  | arr : List JValue → JValue
  | obj : List (String × JValue) → JValue

mutual

/-- Decidable structural equality on record values. -/
def JValue.decEq : (a b : JValue) → Decidable (a = b)
  | .null, .null => isTrue rfl
  | .bool a, .bool c =>
    if h : a = c then isTrue (by rw [h]) else
      isFalse (fun hh => h (by injection hh))
  | .int a, .int c =>
    if h : a = c then isTrue (by rw [h]) else
      isFalse (fun hh => h (by injection hh))
  | .str a, .str c =>
    if h : a = c then isTrue (by rw [h]) else
      isFalse (fun hh => h (by injection hh))
  | .arr xs, .arr ys =>
    match JValue.decEqArr xs ys with
    | isTrue h => isTrue (by rw [h])
    | isFalse h => isFalse (fun hh => h (by injection hh))
  | .obj xs, .obj ys =>
    match JValue.decEqObj xs ys with
    | isTrue h => isTrue (by rw [h])
    | isFalse h => isFalse (fun hh => h (by injection hh))
  | .null, .bool _ => isFalse (fun h => nomatch h)
  | .null, .int _ => isFalse (fun h => nomatch h)
  | .null, .str _ => isFalse (fun h => nomatch h)
  | .null, .arr _ => isFalse (fun h => nomatch h)
  | .null, .obj _ => isFalse (fun h => nomatch h)
  | .bool _, .null => isFalse (fun h => nomatch h)
  | .bool _, .int _ => isFalse (fun h => nomatch h)
  | .bool _, .str _ => isFalse (fun h => nomatch h)
  | .bool _, .arr _ => isFalse (fun h => nomatch h)
  | .bool _, .obj _ => isFalse (fun h => nomatch h)
  | .int _, .null => isFalse (fun h => nomatch h)
  | .int _, .bool _ => isFalse (fun h => nomatch h)
  | .int _, .str _ => isFalse (fun h => nomatch h)
  | .int _, .arr _ => isFalse (fun h => nomatch h)
  | .int _, .obj _ => isFalse (fun h => nomatch h)
  | .str _, .null => isFalse (fun h => nomatch h)
  | .str _, .bool _ => isFalse (fun h => nomatch h)
  | .str _, .int _ => isFalse (fun h => nomatch h)
  | .str _, .arr _ => isFalse (fun h => nomatch h)
  | .str _, .obj _ => isFalse (fun h => nomatch h)
  | .arr _, .null => isFalse (fun h => nomatch h)
  | .arr _, .bool _ => isFalse (fun h => nomatch h)
  | .arr _, .int _ => isFalse (fun h => nomatch h)
  | .arr _, .str _ => isFalse (fun h => nomatch h)
  | .arr _, .obj _ => isFalse (fun h => nomatch h)
  | .obj _, .null => isFalse (fun h => nomatch h)
  | .obj _, .bool _ => isFalse (fun h => nomatch h)
  | .obj _, .int _ => isFalse (fun h => nomatch h)
  | .obj _, .str _ => isFalse (fun h => nomatch h)
  | .obj _, .arr _ => isFalse (fun h => nomatch h)

/-- Decidable equality on record-value arrays. -/
def JValue.decEqArr : (xs ys : List JValue) → Decidable (xs = ys)
  | [], [] => isTrue rfl
  | [], _ :: _ => isFalse (fun h => nomatch h)
  | _ :: _, [] => isFalse (fun h => nomatch h)
  | x :: xs, y :: ys =>
    match JValue.decEq x y with
    | isFalse h1 => isFalse (fun hh => h1 (by injection hh))
    | isTrue h1 =>
      match JValue.decEqArr xs ys with
      | isTrue h2 => isTrue (by rw [h1, h2])
      | isFalse h2 => isFalse (fun hh => h2 (by injection hh))

/-- Decidable equality on string-keyed record-value bindings. -/
def JValue.decEqObj : (xs ys : List (String × JValue)) → Decidable (xs = ys)
  | [], [] => isTrue rfl
  | [], _ :: _ => isFalse (fun h => nomatch h)
  | _ :: _, [] => isFalse (fun h => nomatch h)
  | (k1, v1) :: xs, (k2, v2) :: ys =>
    if hk : k1 = k2 then
      match JValue.decEq v1 v2 with
      | isFalse h1 =>
        isFalse (fun hh => by
          injection hh with hh1 hh2
          injection hh1 with hk1 hv1
          exact h1 hv1)
      | isTrue h1 =>
        match JValue.decEqObj xs ys with
        | isTrue h2 => isTrue (by rw [hk, h1, h2])
        | isFalse h2 => isFalse (fun hh => h2 (by injection hh))
    else
      isFalse (fun hh => by
        injection hh with hh1 hh2
        injection hh1 with hk1 hv1
        exact hk hk1)

end

instance : DecidableEq JValue := JValue.decEq

/-- Python dict lookup `d[k]` as an option (first binding wins; dicts built by
`dinsert` have unique keys). -/
def dlookup {α : Type} : List (String × α) → String → Option α
  | [], _ => none
  | (k1, v1) :: rest, k => if k1 = k then some v1 else dlookup rest k

/-- Python dict assignment `d[k] = v`: replaces the value in place when the key
exists, appends otherwise. -/
def dinsert {α : Type} : List (String × α) → String → α → List (String × α)
  | [], k, v => [(k, v)]
  | (k1, v1) :: rest, k, v =>
    if k1 = k then (k1, v) :: rest else (k1, v1) :: dinsert rest k v

/-- Python `del d[k]`: removes the (first) binding of `k`. -/
def ddelete {α : Type} : List (String × α) → String → List (String × α)
  | [], _ => []
  | (k1, v1) :: rest, k => if k1 = k then rest else (k1, v1) :: ddelete rest k

/-- Python `str()` on scalar record values: `None`, booleans, integers and
strings render exactly as in Python.  The schema identifiers the codec
renders into warning strings are strings, and every theorem stated below
constrains any rendered value to the scalar constructors, so the placeholder
rendering of compound values is never relied upon. -/
def pyStr : JValue → String
  | .null => "None"
  | .bool b => if b then "True" else "False"
  | .int n => toString n
  | .str s => s
  | .arr _ => "[...]"
  | .obj _ => "{...}"

/-- Python `bool()` truthiness of a record value. -/
def pyBool : JValue → Bool
  | .null => false
  | .bool b => b
  | .int n => n ≠ 0
  | .str s => s ≠ ""
  | .arr xs => !xs.isEmpty
  | .obj kvs => !kvs.isEmpty

namespace raillabel

/-- The fatal decode errors of the schema layer (spec section 7): a required
field absent from its record (Python `KeyError`), a read past the end of a
geometry sequence (Python `IndexError`), or a substructure of the wrong shape.
No partial entity accompanies an error. -/
inductive SchemaError where
  | missingField : String → SchemaError
  | indexError : SchemaError
  | badType : String → SchemaError
deriving DecidableEq

/-- Modelled from the spec: coordinate systems are lookup-only entities keyed
by name (section 3); `coordinate_system.py` is not among the sources and only
the identifying name is relevant to this layer. -/
structure CoordinateSystem where
  uid : String
deriving DecidableEq

/-- Modelled from the spec: `point3d.py` is not among the sources; a 3D point
carries the three coordinates read verbatim from the flat sequence
(`Point3d(x=..., y=..., z=...)` in poly3d.py line 79). -/
structure Point3d where
  x : JValue
  y : JValue
  z : JValue
deriving DecidableEq

/-- Modelled from the spec: a point encodes to its flat numeric-array record
form `[x, y, z]` (section 2, scalar codecs), consumed by
`dict_repr["val"].extend(point.asdict())` in poly3d.py line 135. -/
def Point3d.asdict (p : Point3d) : List JValue :=
  [p.x, p.y, p.z]

/-- The typed 3D polyline entity (poly3d.py lines 11-44 plus the common fields
of `_Annotation`, which is not among the sources and is modelled from the spec
section 3: `uid`, `name`, optional `coordinate_system`, `attributes`, the
reserved `uri` field, and the non-owning back-reference to the owning object
data, kept as an identity key per spec section 9). -/
structure Poly3d where
  uid : String
  name : String
  points : List Point3d
  closed : JValue
  attributes : List (String × JValue)
  coordinate_system : Option CoordinateSystem
  uri : Option JValue
  object_data : Option String
deriving DecidableEq

/-- The geometry-unpacking loop of `Poly3d.fromdict` (poly3d.py lines 76-81):
`for i in range(0, len(val), 3)` reads `val[i]`, `val[i+1]`, `val[i+2]`; a
trailing chunk of one or two elements makes the read of `val[i+1]` or
`val[i+2]` fail with an index error, exactly when the sequence length is not a
multiple of three. -/
def parsePoints : List JValue → Except SchemaError (List Point3d)
  | [] => .ok []
  | [_] => .error .indexError
  | [_, _] => .error .indexError
  | x :: y :: z :: rest =>
    match parsePoints rest with
    | .ok ps => .ok (⟨x, y, z⟩ :: ps)
    | .error e => .error e

/-- The optional coordinate-system resolution of `Poly3d.fromdict` (poly3d.py
lines 92-100): if the key is present and its value is not the empty string, the
value is looked up in the supplied mapping; on a miss the reference stays unset
and the warning string is produced from the referenced name and the record's
`uid` value.  A non-string reference value compares unequal to `""` and misses
the string-keyed mapping. -/
def csResolve (data_dict : List (String × JValue))
    (coordinate_systems : List (String × CoordinateSystem)) (uidV : JValue) :
    Option CoordinateSystem × List String :=
  match dlookup data_dict "coordinate_system" with
  | none => (none, [])
  | some (.str s) =>
    if s = "" then (none, [])
    else
      match dlookup coordinate_systems s with
      | some c => (some c, [])
      | none =>
        (none, [s ++ " does not exist as a coordinate system, but is referenced for the annotation "
          ++ pyStr uidV ++ "."])
  | some v =>
    (none, [pyStr v ++ " does not exist as a coordinate system, but is referenced for the annotation "
      ++ pyStr uidV ++ "."])

/-- One record of the categorized attribute substructure, `{"name": ..,
"val": ..}`; attribute names are strings in the schema. -/
def decodeAttrItem : JValue → Except SchemaError (String × JValue)
  | .obj kvs =>
    match dlookup kvs "name" with
    | none => .error (.missingField "name")
    | some (.str s) =>
      match dlookup kvs "val" with
      | none => .error (.missingField "val")
      | some v => .ok (s, v)
    | some _ => .error (.badType "name")
  | _ => .error (.badType "attributes")

/-- A comprehension over a sequence whose body can fail: the first failure
aborts the whole comprehension. -/
def exceptMap {α β : Type} (f : α → Except SchemaError β) :
    List α → Except SchemaError (List β)
  | [] => .ok []
  | x :: xs =>
    match f x with
    | .error e => .error e
    | .ok y =>
      match exceptMap f xs with
      | .error e => .error e
      | .ok ys => .ok (y :: ys)

/-- One category of the attribute substructure: a list of attribute records. -/
def decodeAttrCat : String × JValue → Except SchemaError (List (String × JValue))
  | (_, .arr items) => exceptMap decodeAttrItem items
  | _ => .error (.badType "attributes")

/-- The flattening comprehension of `Poly3d.fromdict` (poly3d.py lines
105-107): every category list contributes its `(name, val)` entries in record
order. -/
def flattenAttrEntries (cats : List (String × JValue)) :
    Except SchemaError (List (String × JValue)) :=
  match exceptMap decodeAttrCat cats with
  | .ok ls => .ok ls.flatten
  | .error e => .error e

/-- A Python dict built by a comprehension: successive assignment of the
entries into an empty dict, so a later entry overwrites an earlier one with
the same key. -/
def buildDict {α : Type} (entries : List (String × α)) : List (String × α) :=
  entries.foldl (fun m kv => dinsert m kv.1 kv.2) []

/-- The attribute handling of `Poly3d.fromdict` (poly3d.py lines 103-112): the
flattened name-to-value dict is built by successive insertion (later categories
overwrite earlier ones on a name collision); a flattened attribute named `uri`
is moved into the dedicated `uri` field and deleted from the mapping. -/
def attrsApply (base : Poly3d) (av : JValue) : Except SchemaError Poly3d :=
  match av with
  | .obj cats =>
    match flattenAttrEntries cats with
    | .error e => .error e
    | .ok entries =>
      let flat := buildDict entries
      match dlookup flat "uri" with
      | some u => .ok { base with attributes := ddelete flat "uri", uri := some u }
      | none => .ok { base with attributes := flat }
  | _ => .error (.badType "attributes")

/-- `Poly3d.fromdict` (poly3d.py lines 46-114): decode a 3D polyline record.
The points are unpacked first from `val`; then the mandatory `uid`, `name` and
`closed` fields are read (a missing key is fatal, `closed` is stored raw); the
optional coordinate-system reference is resolved with a warning on a miss; the
optional attributes are flattened and the reserved `uri` attribute extracted.
Returns the entity together with the ordered warning list. -/
def Poly3d.fromdict (data_dict : List (String × JValue))
    (coordinate_systems : List (String × CoordinateSystem))
    (object_data : Option String) :
    Except SchemaError (Poly3d × List String) :=
  match dlookup data_dict "val" with
  | none => .error (.missingField "val")
  | some (.arr vs) =>
    match parsePoints vs with
    | .error e => .error e
    | .ok points =>
      match dlookup data_dict "uid" with
      | none => .error (.missingField "uid")
      | some uidV =>
        match dlookup data_dict "name" with
        | none => .error (.missingField "name")
        | some nameV =>
          match dlookup data_dict "closed" with
          | none => .error (.missingField "closed")
          | some closedV =>
            let csw := csResolve data_dict coordinate_systems uidV
            let base : Poly3d :=
              { uid := pyStr uidV, name := pyStr nameV, points := points,
                closed := closedV, attributes := [],
                coordinate_system := csw.1, uri := none,
                object_data := object_data }
            match dlookup data_dict "attributes" with
            | none => .ok (base, csw.2)
            | some av =>
              match attrsApply base av with
              | .error e => .error e
              | .ok ann2 => .ok (ann2, csw.2)
  | some _ => .error (.badType "val")

/-- The flattening of the point list into the flat numeric sequence
(poly3d.py lines 133-135): `dict_repr["val"]` starts empty and is extended by
each point's `[x, y, z]` in order. -/
def flattenPoints (ps : List Point3d) : List JValue :=
  ps.foldl (fun acc p => acc ++ p.asdict) []

/-- Modelled from the spec: `_Annotation._annotation_required_fields_asdict`
is not among the sources; per spec section 4.1 the required common fields
`uid` and `name` are always present in the output record. -/
def requiredFieldsAsdict (a : Poly3d) : List (String × JValue) :=
  [("uid", .str a.uid), ("name", .str a.name)]

/-- Encoded form of one flattened attribute. -/
def encAttr (kv : String × JValue) : JValue :=
  .obj [("name", .str kv.1), ("val", kv.2)]

/-- One category group of the encoded attribute record: the attributes whose
values have the category's kind, omitted when empty. -/
def catGroup (cname : String) (p : JValue → Bool)
    (l : List (String × JValue)) : List (String × JValue) :=
  let g := l.filter (fun kv => p kv.2)
  if g.isEmpty then [] else [(cname, .arr (g.map encAttr))]

def isTextV : JValue → Bool
  | .str _ => true
  | _ => false

def isNumV : JValue → Bool
  | .int _ => true
  | _ => false

def isBoolV : JValue → Bool
  | .bool _ => true
  | _ => false

def isVecV : JValue → Bool
  | .arr _ => true
  | _ => false

/-- A value is representable as an attribute exactly when it falls in one of
the four categories of the tagged union of spec section 3. -/
def kindOk (v : JValue) : Bool :=
  isTextV v || isNumV v || isBoolV v || isVecV v

/-- The category groups of the encoded attribute substructure, in a fixed
category order. -/
def catGroups (l : List (String × JValue)) : List (String × JValue) :=
  catGroup "text" isTextV l ++ catGroup "num" isNumV l
    ++ catGroup "boolean" isBoolV l ++ catGroup "vec" isVecV l

/-- Modelled from the spec: the encoded attribute substructure categorizes the
flattened attributes by value kind into the tagged union of spec section 3
(string, number, boolean, numeric vector), each category a list of
`{"name": .., "val": ..}` records. -/
def attributesAsdict (l : List (String × JValue)) : JValue :=
  .obj (catGroups l)

/-- The reserved `uri` attribute entry carrying the `uri` field, when set. -/
def uriEntry (a : Poly3d) : List (String × JValue) :=
  match a.uri with
  | some v => [("uri", v)]
  | none => []

/-- All attributes the encode writes into the attribute substructure: the
attribute mapping plus the reserved `uri` entry. -/
def allAttrs (a : Poly3d) : List (String × JValue) :=
  a.attributes ++ uriEntry a

/-- Modelled from the spec: `_Annotation._annotation_optional_fields_asdict`
is not among the sources; per spec sections 4.1 and 8 the optional fields
`coordinate_system`, `attributes` and `uri` are included only if set or
non-empty, the coordinate system is referenced by its name, and the reserved
`uri` attribute carries the `uri` field inside the attribute record. -/
def optionalFieldsAsdict (a : Poly3d) : List (String × JValue) :=
  (match a.coordinate_system with
   | some c => [("coordinate_system", .str c.uid)]
   | none => []) ++
  (if (allAttrs a).isEmpty then []
   else [("attributes", attributesAsdict (allAttrs a))])

/-- `Poly3d.asdict` (poly3d.py lines 116-139): the required fields, then the
`closed` flag coerced to boolean, then the flattened `val` sequence, then the
optional fields merged in by dict update. -/
def Poly3d.asdict (a : Poly3d) : List (String × JValue) :=
  let d := requiredFieldsAsdict a
  let d := dinsert d "closed" (.bool (pyBool a.closed))
  let d := dinsert d "val" (.arr (flattenPoints a.points))
  (optionalFieldsAsdict a).foldl (fun m kv => dinsert m kv.1 kv.2) d

/-- Timestamps are `decimal.Decimal` values; only their presence and rendering
matter to this layer, so they are carried as an opaque integer payload. -/
structure Dec where
  val : Int
deriving DecidableEq

/-- Modelled from the spec: `num.py` is not among the sources; a frame-data
scalar entity with its identity, name and value (spec section 2, scalar
codecs). -/
structure Num where
  uid : String
  name : String
  val : JValue
deriving DecidableEq

/-- Modelled from the spec: the record form of a frame-data scalar. -/
def Num.asdict (n : Num) : JValue :=
  .obj [("uid", .str n.uid), ("name", .str n.name), ("val", n.val)]

/-- Modelled from the spec: `stream_reference.py` is not among the sources; a
stream reference carries frame-specific stream information like timestamp and
uri (frame.py docstring, spec section 3). -/
structure StreamReference where
  timestamp : Dec
  uri : String
deriving DecidableEq

/-- Modelled from the spec: the record form of a stream reference. -/
def StreamReference.asdict (s : StreamReference) : JValue :=
  .obj [("stream_properties", .obj [("timestamp", .str (toString s.timestamp.val))]),
    ("uri", .str s.uri)]

/-- Modelled from the spec: `object_data.py` is not among the sources; the
per-object container groups the object's annotations by kind into mappings
keyed by annotation uid (spec sections 3 and 4.2), next to the non-dict
back-reference to the owning object identity.  The 3D polyline kind is the
kind present in the sources. -/
structure ObjectData where
  object : String
  poly3ds : List (String × Poly3d)
deriving DecidableEq

/-- Modelled from the spec: the object-data record emits only non-empty kind
groups (spec section 4.2). -/
def ObjectData.asdict (od : ObjectData) : JValue :=
  .obj (if od.poly3ds.isEmpty then []
    else [("poly3d", .arr (od.poly3ds.map (fun kv => .obj (Poly3d.asdict kv.2))))])

/-- The dict-typed instance attributes of an object data, in declaration
order: `vars(object).values()` keeps the kind-group dicts and skips the
non-dict back-reference (frame.py lines 54-57). -/
def ObjectData.dictFields (od : ObjectData) : List (List (String × Poly3d)) :=
  [od.poly3ds]

/-- `Frame` (frame.py lines 41-45): frame number, optional timestamp, stream
references, frame-level data and the per-object annotations. -/
structure Frame where
  uid : Int
  timestamp : Option Dec
  streams : List (String × StreamReference)
  data : List (String × Num)
  objects : List (String × ObjectData)
deriving DecidableEq

/-- Python `dict.update(other)`: successive assignment of the other dict's
bindings. -/
def dictUpdate {α : Type} (m other : List (String × α)) : List (String × α) :=
  other.foldl (fun acc kv => dinsert acc kv.1 kv.2) m

/-- `Frame.annotations` (frame.py lines 47-59): the derived view merging every
dict-typed attribute of every object data into one mapping, in object order;
recomputed from the frame, never stored. -/
def Frame.annotations (f : Frame) : List (String × Poly3d) :=
  f.objects.foldl (fun acc kv => kv.2.dictFields.foldl dictUpdate acc) []

/-- Assignment into a nested record, `d[k1][k2] = v`: a Python `KeyError` when
`d` has no binding for `k1`. -/
def setInObj (d : List (String × JValue)) (k1 k2 : String) (v : JValue) :
    Except SchemaError (List (String × JValue)) :=
  match dlookup d k1 with
  | some (.obj o) => .ok (dinsert d k1 (.obj (dinsert o k2 v)))
  | some _ => .error (.badType k1)
  | none => .error (.missingField k1)

/-- `Frame.asdict` (frame.py lines 61-96): `frame_properties` is created only
when a timestamp or streams are present (line 77); the timestamp, the streams
and the frame data are then assigned into `dict_repr["frame_properties"]`
(lines 80-91), and `objects` is emitted only when non-empty (line 93). -/
def Frame.asdict (f : Frame) : Except SchemaError (List (String × JValue)) :=
  let d0 : List (String × JValue) := []
  let d1 := if f.timestamp.isSome || !f.streams.isEmpty
    then dinsert d0 "frame_properties" (.obj []) else d0
  match (match f.timestamp with
    | some ts => setInObj d1 "frame_properties" "timestamp" (.str (toString ts.val))
    | none => Except.ok d1) with
  | .error e => .error e
  | .ok d2 =>
    match (if f.streams.isEmpty then Except.ok d2
      else setInObj d2 "frame_properties" "streams"
        (.obj (f.streams.map (fun kv => (kv.1, kv.2.asdict))))) with
    | .error e => .error e
    | .ok d3 =>
      match (if f.data.isEmpty then Except.ok d3
        else setInObj d3 "frame_properties" "frame_data"
          (.obj [("num", .arr (f.data.map (fun kv => kv.2.asdict)))])) with
      | .error e => .error e
      | .ok d4 =>
        .ok (if f.objects.isEmpty then d4
          else dinsert d4 "objects" (.obj (f.objects.map (fun kv => (kv.1, kv.2.asdict)))))

/-- The values a frame instance attribute can hold, as compared by
`Frame.__eq__` (frame.py lines 98-117): the typed field values, a frame (for
the `type(getattr(self, attr)) == type(self)` branch of line 109), and other
values, unequal to all of these. -/
inductive PVal where
  | vInt : Int → PVal
  | vNone : PVal
  | vDec : Dec → PVal
  | vStreams : List (String × StreamReference) → PVal
  | vData : List (String × Num) → PVal
  | vObjects : List (String × ObjectData) → PVal
  | vFrame : Frame → PVal
  | vOther : Nat → PVal
deriving DecidableEq

/-- The timestamp attribute value: the decimal when set, Python `None`
otherwise. -/
def tsPVal : Option Dec → PVal
  | some d => .vDec d
  | none => .vNone

/-- `self.__dict__` of a frame: the five dataclass fields in declaration
order. -/
def Frame.pyDict (f : Frame) : List (String × PVal) :=
  [("uid", .vInt f.uid),
   ("timestamp", tsPVal f.timestamp),
   ("streams", .vStreams f.streams),
   ("data", .vData f.data),
   ("objects", .vObjects f.objects)]

/-- The `.uid` attribute access on a compared value: among the modelled values
only frames carry a `uid`; an absent attribute is a Python
`AttributeError`. -/
def PVal.uidAttr : PVal → Option Int
  | .vFrame f => some f.uid
  | _ => none

/-- The attribute loop of `Frame.__eq__` (frame.py lines 107-115): each of the
frame's own attributes is compared with the other object's same-named
attribute, a frame-typed value through its `uid` proxy and every other value
by Python equality; an attribute missing from the other object raises an
`AttributeError`. -/
def frameEqLoop (other : List (String × PVal)) :
    List (String × PVal) → Except String Bool
  | [] => .ok true
  | (attr, v) :: rest =>
    match dlookup other attr with
    | none => .error "AttributeError"
    | some w =>
      match v with
      | .vFrame fv =>
        match w.uidAttr with
        | none => .error "AttributeError"
        | some u => if fv.uid ≠ u then .ok false else frameEqLoop other rest
      | _ => if v ≠ w then .ok false else frameEqLoop other rest

/-- `Frame.__eq__` (frame.py lines 98-117) against an arbitrary object given
by its attribute dict: `False` when the attribute counts differ (line 104),
then the attribute loop. -/
def frameEqDyn (f : Frame) (other : List (String × PVal)) : Except String Bool :=
  if (Frame.pyDict f).length ≠ other.length then .ok false
  else frameEqLoop other (Frame.pyDict f)

/-- `hasattr(other, "__dict__")`: among the modelled values only frames have
an attribute dict; primitives and containers do not. -/
def PVal.instanceDict : PVal → Option (List (String × PVal))
  | .vFrame g => some (Frame.pyDict g)
  | _ => none

/-- `Frame.__eq__` against any compared value: `False` when the value has no
`__dict__` (frame.py lines 101-102). -/
def frameEqVal (f : Frame) (other : PVal) : Except String Bool :=
  match other.instanceDict with
  | none => .ok false
  | some od => frameEqDyn f od

/-- Python dict equality: dictionaries compare by their key-value bindings
regardless of insertion order. -/
def pyDictEq (l1 l2 : List (String × JValue)) : Bool :=
  (l1 ++ l2).all (fun kv => dlookup l1 kv.1 == dlookup l2 kv.1)

/-- Modelled from the spec: `_Annotation.equals` is not among the sources; per
spec section 4.5 entities compare structurally field by field, except that a
field that is itself an entity is compared through its `uid` proxy (the
coordinate-system reference, and the back-reference identity per spec section
9), and dict-valued fields compare as Python dicts. -/
def Poly3d.pyEquals (a b : Poly3d) : Bool :=
  a.uid == b.uid && a.name == b.name && a.points == b.points
    && a.closed == b.closed && pyDictEq a.attributes b.attributes
    && (match a.coordinate_system, b.coordinate_system with
      | none, none => true
      | some c1, some c2 => c1.uid == c2.uid
      | _, _ => false)
    && a.uri == b.uri && a.object_data == b.object_data

end raillabel

/-- Looking up after a dict assignment: the assigned key yields the new value,
any other key is unaffected. -/
theorem dlookup_dinsert {α : Type} (l : List (String × α)) (k k2 : String) (v : α) :
    dlookup (dinsert l k v) k2 = if k = k2 then some v else dlookup l k2 := by
  induction l with
  | nil =>
    by_cases h : k = k2 <;> simp [dinsert, dlookup, h]
  | cons kv rest ih =>
    obtain ⟨k1, v1⟩ := kv
    by_cases h1 : k1 = k
    · subst h1
      by_cases h2 : k1 = k2 <;> simp [dinsert, dlookup, h2]
    · by_cases h2 : k1 = k2
      · subst h2
        have hne : k ≠ k1 := fun h => h1 h.symm
        simp [dinsert, dlookup, h1, hne]
      · simp [dinsert, dlookup, h1, h2, ih]

/-- Assigning a fresh key appends the binding. -/
theorem dinsert_not_mem {α : Type} (l : List (String × α)) (k : String) (v : α)
    (h : k ∉ l.map Prod.fst) : dinsert l k v = l ++ [(k, v)] := by
  induction l with
  | nil => simp [dinsert]
  | cons kv rest ih =>
    obtain ⟨k1, v1⟩ := kv
    simp only [List.map_cons, List.mem_cons, not_or] at h
    have h1 : k1 ≠ k := fun hh => h.1 hh.symm
    simp only [dinsert, if_neg h1, List.cons_append, List.cons.injEq, true_and]
    exact ih h.2

/-- A key bound in the left dict is found there. -/
theorem dlookup_append_left {α : Type} (l1 l2 : List (String × α)) (k : String) (v : α)
    (h : dlookup l1 k = some v) : dlookup (l1 ++ l2) k = some v := by
  induction l1 with
  | nil => simp [dlookup] at h
  | cons kv rest ih =>
    obtain ⟨k1, v1⟩ := kv
    by_cases h1 : k1 = k
    · simp only [dlookup, if_pos h1] at h
      simp only [List.cons_append, dlookup, if_pos h1]
      exact h
    · simp only [dlookup, if_neg h1] at h
      simp only [List.cons_append, dlookup, if_neg h1]
      exact ih h

/-- A key absent from the left dict is looked up in the right one. -/
theorem dlookup_append_right {α : Type} (l1 l2 : List (String × α)) (k : String)
    (h : dlookup l1 k = none) : dlookup (l1 ++ l2) k = dlookup l2 k := by
  induction l1 with
  | nil => simp [dlookup]
  | cons kv rest ih =>
    obtain ⟨k1, v1⟩ := kv
    by_cases h1 : k1 = k
    · simp [dlookup, if_pos h1] at h
    · simp only [dlookup, if_neg h1] at h
      simp only [List.cons_append, dlookup, if_neg h1]
      exact ih h

/-- A lookup misses exactly when the key is absent. -/
theorem dlookup_eq_none_iff {α : Type} (l : List (String × α)) (k : String) :
    dlookup l k = none ↔ k ∉ l.map Prod.fst := by
  induction l with
  | nil => simp [dlookup]
  | cons kv rest ih =>
    obtain ⟨k1, v1⟩ := kv
    by_cases h1 : k1 = k
    · subst h1
      simp [dlookup]
    · have h1s : k ≠ k1 := fun hh => h1 hh.symm
      simp only [dlookup, if_neg h1, List.map_cons, List.mem_cons, not_or, ih]
      simp [h1s]

/-- Deleting one key leaves lookups of other keys unchanged. -/
theorem dlookup_ddelete_ne {α : Type} (l : List (String × α)) (k u : String)
    (h : k ≠ u) : dlookup (ddelete l u) k = dlookup l k := by
  induction l with
  | nil => simp [ddelete]
  | cons kv rest ih =>
    obtain ⟨k1, v1⟩ := kv
    by_cases h1 : k1 = u
    · subst h1
      have hne : k1 ≠ k := fun hh => h (hh.symm)
      simp [ddelete, dlookup, hne]
    · by_cases h2 : k1 = k
      · subst h2
        simp [ddelete, dlookup, h1, h, ih]
      · simp [ddelete, dlookup, h1, h2, ih]

/-- In a dict with unique keys, a deleted key is no longer found. -/
theorem dlookup_ddelete_self {α : Type} (l : List (String × α)) (u : String)
    (h : (l.map Prod.fst).Nodup) : dlookup (ddelete l u) u = none := by
  induction l with
  | nil => simp [ddelete, dlookup]
  | cons kv rest ih =>
    obtain ⟨k1, v1⟩ := kv
    simp only [List.map_cons, List.nodup_cons] at h
    by_cases h1 : k1 = u
    · subst h1
      simp only [ddelete, if_pos rfl]
      exact (dlookup_eq_none_iff rest k1).mpr h.1
    · simp [ddelete, dlookup, h1, ih h.2]

/-- The keys of a dict after an assignment. -/
theorem keys_dinsert {α : Type} (l : List (String × α)) (k : String) (v : α) :
    (dinsert l k v).map Prod.fst =
      if k ∈ l.map Prod.fst then l.map Prod.fst else l.map Prod.fst ++ [k] := by
  induction l with
  | nil => simp [dinsert]
  | cons kv rest ih =>
    obtain ⟨k1, v1⟩ := kv
    by_cases h1 : k1 = k
    · subst h1
      simp [dinsert]
    · have h1s : k ≠ k1 := fun hh => h1 hh.symm
      by_cases h2 : k ∈ rest.map Prod.fst
      · simp [dinsert, if_neg h1, ih, h2, h1s]
      · simp [dinsert, if_neg h1, ih, h2, h1s]

/-- Assignment preserves uniqueness of keys. -/
theorem nodup_keys_dinsert {α : Type} (l : List (String × α)) (k : String) (v : α)
    (h : (l.map Prod.fst).Nodup) : ((dinsert l k v).map Prod.fst).Nodup := by
  rw [keys_dinsert]
  by_cases h2 : k ∈ l.map Prod.fst
  · simpa [h2]
  · simp only [h2, if_false]
    rw [List.nodup_append]
    exact ⟨h, List.nodup_singleton k, by simp [h2]⟩

/-- Building a dict by successive assignment of fresh, mutually distinct keys
appends the bindings in order. -/
theorem foldl_dinsert_eq_append {α : Type} (l : List (String × α)) :
    ∀ acc : List (String × α), (l.map Prod.fst).Nodup →
    (∀ k ∈ l.map Prod.fst, k ∉ acc.map Prod.fst) →
    l.foldl (fun m kv => dinsert m kv.1 kv.2) acc = acc ++ l := by
  induction l with
  | nil => intro acc _ _; simp
  | cons kv rest ih =>
    intro acc hl hd
    obtain ⟨k1, v1⟩ := kv
    simp only [List.map_cons, List.nodup_cons] at hl
    have hfresh : k1 ∉ acc.map Prod.fst := hd k1 (by simp)
    have step : dinsert acc k1 v1 = acc ++ [(k1, v1)] := dinsert_not_mem acc k1 v1 hfresh
    simp only [List.foldl_cons, step]
    rw [ih (acc ++ [(k1, v1)]) hl.2 ?fresh]
    · simp
    case fresh =>
      intro k hk
      simp only [List.map_append, List.mem_append, not_or, List.map_cons,
        List.map_nil, List.mem_singleton]
      refine ⟨fun hka => hd k (by simp only [List.map_cons, List.mem_cons]; right; exact hk) hka, ?_⟩
      intro hkk
      exact hl.1 (hkk ▸ hk)

/-- Building a dict by successive assignment keeps keys unique. -/
theorem foldl_dinsert_nodup_keys {α : Type} (l : List (String × α)) :
    ∀ acc : List (String × α), (acc.map Prod.fst).Nodup →
    ((l.foldl (fun m kv => dinsert m kv.1 kv.2) acc).map Prod.fst).Nodup := by
  induction l with
  | nil => intro acc h; simpa
  | cons kv rest ih =>
    intro acc h
    simp only [List.foldl_cons]
    exact ih _ (nodup_keys_dinsert acc kv.1 kv.2 h)

namespace raillabel

/-- The point-flattening loop grows its accumulator on the right. -/
theorem flattenPoints_acc (l : List Point3d) :
    ∀ acc : List JValue, l.foldl (fun a p => a ++ p.asdict) acc = acc ++ flattenPoints l := by
  induction l with
  | nil => intro acc; simp [flattenPoints]
  | cons p rest ih =>
    intro acc
    simp only [flattenPoints, List.foldl_cons, List.nil_append]
    rw [ih, ih (Point3d.asdict p)]
    simp

/-- Flattening one point contributes its three coordinates in order. -/
theorem flattenPoints_cons (p : Point3d) (ps : List Point3d) :
    flattenPoints (p :: ps) = p.x :: p.y :: p.z :: flattenPoints ps := by
  simp only [flattenPoints, List.foldl_cons, List.nil_append]
  rw [flattenPoints_acc]
  simp [flattenPoints, Point3d.asdict]

/-- Unpacking the flat sequence produced by flattening restores the points. -/
theorem parsePoints_flattenPoints (ps : List Point3d) :
    parsePoints (flattenPoints ps) = .ok ps := by
  induction ps with
  | nil => simp [flattenPoints, parsePoints]
  | cons p rest ih => simp [flattenPoints_cons, parsePoints, ih]

/-- A flat sequence whose length is not a multiple of three makes the
unpacking loop read past the end. -/
theorem parsePoints_len_err :
    ∀ xs : List JValue, xs.length % 3 ≠ 0 → parsePoints xs = .error .indexError
  | [], h => by simp at h
  | [_], _ => rfl
  | [_, _], _ => rfl
  | x :: y :: z :: rest, h => by
    have hr : rest.length % 3 ≠ 0 := by
      intro hc
      apply h
      simp only [List.length_cons]
      omega
    simp [parsePoints, parsePoints_len_err rest hr]

/-- A successfully unpacked flat sequence has a length that is a multiple of
three. -/
theorem parsePoints_ok_len :
    ∀ (xs : List JValue) (ps : List Point3d), parsePoints xs = .ok ps → xs.length % 3 = 0
  | [], _, _ => rfl
  | [_], _, h => by simp [parsePoints] at h
  | [_, _], _, h => by simp [parsePoints] at h
  | x :: y :: z :: rest, ps, h => by
    simp only [parsePoints] at h
    cases hr : parsePoints rest with
    | error e => rw [hr] at h; exact absurd h (by simp)
    | ok qs =>
      have := parsePoints_ok_len rest qs hr
      simp only [List.length_cons]
      omega

/-- Looking up in a dict built by successive assignment: the last binding of
the key among the inserted entries wins, then the initial dict is consulted. -/
theorem dlookup_foldl_dinsert {α : Type} (l : List (String × α)) :
    ∀ (m : List (String × α)) (k : String),
    dlookup (l.foldl (fun acc kv => dinsert acc kv.1 kv.2) m) k =
      match dlookup l.reverse k with
      | some v => some v
      | none => dlookup m k := by
  induction l with
  | nil => intro m k; simp [dlookup]
  | cons kv rest ih =>
    intro m k
    obtain ⟨k0, v0⟩ := kv
    simp only [List.foldl_cons, List.reverse_cons]
    rw [ih]
    cases hr : dlookup rest.reverse k with
    | some v => rw [dlookup_append_left rest.reverse [(k0, v0)] k v hr]
    | none =>
      rw [dlookup_append_right rest.reverse [(k0, v0)] k hr]
      rw [dlookup_dinsert]
      by_cases h0 : k0 = k <;> simp [dlookup, h0]

/-- Looking up in a comprehension-built dict finds the last binding. -/
theorem dlookup_buildDict {α : Type} (l : List (String × α)) (k : String) :
    dlookup (buildDict l) k = dlookup l.reverse k := by
  rw [buildDict, dlookup_foldl_dinsert]
  cases dlookup l.reverse k <;> simp [dlookup]

/-- A comprehension-built dict has unique keys. -/
theorem buildDict_nodup_keys {α : Type} (l : List (String × α)) :
    ((buildDict l).map Prod.fst).Nodup := by
  exact foldl_dinsert_nodup_keys l [] (by simp)


/-- A frame-data scalar used in concrete checks. -/
def numSample : Num := { uid := "d1", name := "speed", val := .int 7 }

/-- A frame with frame-level data but neither timestamp nor streams. -/
def frameDataOnly : Frame :=
  { uid := 0, timestamp := none, streams := [], data := [("d1", numSample)], objects := [] }

/-- C1: the final conjunct of the claim fails on the code: encoding a frame
whose `data` is non-empty while `timestamp` is unset and `streams` is empty
does not succeed.  `frame_data` is assigned into
`dict_repr["frame_properties"]` (frame.py line 89), but that key was only
created when a timestamp or streams were present (line 77), so the encode
aborts with the missing-key failure instead of emitting the frame data. -/
theorem C1_frame_encode_data_only_keyerror :
    Frame.asdict frameDataOnly = .error (.missingField "frame_properties") := rfl

/-- C3 amended: a record missing a required field (`uid`, `name`, `val`,
`closed`) always fails the whole decode fatally with no partial annotation;
the fatal error names the missing field whenever the fields read before it
decode cleanly (the reads happen in order: `val` is unpacked first, then
`uid`, `name` and `closed` are fetched): a missing `val` is always named, and
a missing `uid`, `name` or `closed` is named when `val` is present and
unpacks; in particular a record lacking only `closed` fails with the error
naming `closed`. -/
theorem C3_fromdict_missing_required_names (d : List (String × JValue))
    (csm : List (String × CoordinateSystem)) (od : Option String) :
    ((dlookup d "uid" = none ∨ dlookup d "name" = none ∨ dlookup d "val" = none ∨
        dlookup d "closed" = none) → ∃ e, Poly3d.fromdict d csm od = .error e) ∧
    (dlookup d "val" = none →
      Poly3d.fromdict d csm od = .error (.missingField "val")) ∧
    (∀ xs ps, dlookup d "val" = some (.arr xs) → parsePoints xs = .ok ps →
      dlookup d "uid" = none →
      Poly3d.fromdict d csm od = .error (.missingField "uid")) ∧
    (∀ xs ps uv, dlookup d "val" = some (.arr xs) → parsePoints xs = .ok ps →
      dlookup d "uid" = some uv → dlookup d "name" = none →
      Poly3d.fromdict d csm od = .error (.missingField "name")) ∧
    (∀ xs ps uv nv, dlookup d "val" = some (.arr xs) → parsePoints xs = .ok ps →
      dlookup d "uid" = some uv → dlookup d "name" = some nv →
      dlookup d "closed" = none →
      Poly3d.fromdict d csm od = .error (.missingField "closed")) := by
  refine ⟨?_, ?_, ?_, ?_, ?_⟩
  · intro hmiss
    cases hval : dlookup d "val" with
    | none => exact ⟨.missingField "val", by simp [Poly3d.fromdict, hval]⟩
    | some v =>
      cases v with
      | arr xs =>
        cases hp : parsePoints xs with
        | error e => exact ⟨e, by simp [Poly3d.fromdict, hval, hp]⟩
        | ok ps =>
          cases huid : dlookup d "uid" with
          | none => exact ⟨.missingField "uid", by simp [Poly3d.fromdict, hval, hp, huid]⟩
          | some uv =>
            cases hname : dlookup d "name" with
            | none =>
              exact ⟨.missingField "name", by simp [Poly3d.fromdict, hval, hp, huid, hname]⟩
            | some nv =>
              cases hcl : dlookup d "closed" with
              | none =>
                exact ⟨.missingField "closed",
                  by simp [Poly3d.fromdict, hval, hp, huid, hname, hcl]⟩
              | some cv => rcases hmiss with h | h | h | h <;> simp_all
      | null => exact ⟨.badType "val", by simp [Poly3d.fromdict, hval]⟩
      | bool b => exact ⟨.badType "val", by simp [Poly3d.fromdict, hval]⟩
      | int n => exact ⟨.badType "val", by simp [Poly3d.fromdict, hval]⟩
      | str st => exact ⟨.badType "val", by simp [Poly3d.fromdict, hval]⟩
      | obj kvs => exact ⟨.badType "val", by simp [Poly3d.fromdict, hval]⟩
  · intro hval
    simp only [Poly3d.fromdict, hval]
  · intro xs ps hval hps huid
    simp only [Poly3d.fromdict, hval, hps, huid]
  · intro xs ps uv hval hps huid hname
    simp only [Poly3d.fromdict, hval, hps, huid, hname]
  · intro xs ps uv nv hval hps huid hname hcl
    simp only [Poly3d.fromdict, hval, hps, huid, hname, hcl]

/-- The polyline record lacking the required `closed` field. -/
def recNoClosed : List (String × JValue) :=
  [("uid", .str "u1"), ("name", .str "n1"), ("val", .arr [.int 0, .int 1, .int 2])]

/-- The polyline record lacking the required `val` field. -/
def recNoVal : List (String × JValue) :=
  [("uid", .str "u1"), ("name", .str "n1"), ("closed", .bool true)]

/-- The polyline record lacking the required `uid` field. -/
def recNoUid : List (String × JValue) :=
  [("name", .str "n1"), ("val", .arr []), ("closed", .bool true)]

/-- The polyline record lacking the required `name` field. -/
def recNoName : List (String × JValue) :=
  [("uid", .str "u1"), ("val", .arr []), ("closed", .bool true)]

/-- C3 witness: each record lacking exactly one required field fails naming
exactly that field. -/
theorem C3_fromdict_missing_required_names_witness :
    Poly3d.fromdict recNoVal [] none = .error (.missingField "val") ∧
    Poly3d.fromdict recNoUid [] none = .error (.missingField "uid") ∧
    Poly3d.fromdict recNoName [] none = .error (.missingField "name") ∧
    Poly3d.fromdict recNoClosed [] none = .error (.missingField "closed") :=
  ⟨(C3_fromdict_missing_required_names recNoVal [] none).2.1 rfl,
   (C3_fromdict_missing_required_names recNoUid [] none).2.2.1 [] [] rfl rfl rfl,
   (C3_fromdict_missing_required_names recNoName [] none).2.2.2.1 [] [] (.str "u1")
     rfl rfl rfl rfl,
   (C3_fromdict_missing_required_names recNoClosed [] none).2.2.2.2
     [.int 0, .int 1, .int 2] [⟨.int 0, .int 1, .int 2⟩] (.str "u1") (.str "n1")
     rfl rfl rfl rfl rfl⟩

/-- The record missing `closed` whose `val` sequence is malformed (one
element). -/
def recBadValNoClosed : List (String × JValue) :=
  [("uid", .str "u1"), ("name", .str "n1"), ("val", .arr [.int 0])]

/-- C3 counterexample: a record missing the required `closed` (its other
required fields all present) for which the decode's fatal error does not name
the missing field: the malformed `val` sequence is unpacked before `closed`
is ever read, so its index error surfaces instead, refuting that the error
always names the missing field. -/
theorem C3_missing_field_not_named_cex :
    dlookup recBadValNoClosed "closed" = none ∧
    dlookup recBadValNoClosed "uid" = some (.str "u1") ∧
    dlookup recBadValNoClosed "name" = some (.str "n1") ∧
    dlookup recBadValNoClosed "val" = some (.arr [.int 0]) ∧
    Poly3d.fromdict recBadValNoClosed [] none = .error .indexError ∧
    SchemaError.indexError ≠ SchemaError.missingField "closed" :=
  ⟨rfl, rfl, rfl, rfl, rfl, by decide⟩

/-- C4: a record whose `val` sequence has a length that is not a multiple of
three fails the decode with the fatal error of the geometry-unpacking loop
(the read past the end of the sequence, never any out-of-bounds value), and no
annotation is returned. -/
theorem C4_fromdict_val_len_fatal (d : List (String × JValue))
    (csm : List (String × CoordinateSystem)) (od : Option String)
    (xs : List JValue) (hval : dlookup d "val" = some (.arr xs))
    (hlen : xs.length % 3 ≠ 0) :
    Poly3d.fromdict d csm od = .error .indexError := by
  simp only [Poly3d.fromdict, hval, parsePoints_len_err xs hlen]

/-- C4 witness: a four-element flat sequence. -/
theorem C4_fromdict_val_len_fatal_witness :
    Poly3d.fromdict
      [("uid", .str "u1"), ("name", .str "n1"),
       ("val", .arr [.int 0, .int 1, .int 2, .int 3]), ("closed", .bool true)]
      [] none = .error .indexError :=
  C4_fromdict_val_len_fatal _ [] none [.int 0, .int 1, .int 2, .int 3] rfl (by decide)

/-- C5: an otherwise well-formed record (required fields present, `val`
unpacking, the uid a string identifier, and any `attributes` substructure
flattening cleanly) whose coordinate-system reference names an entry absent
from the supplied mapping still decodes to an annotation with the reference
unset and yields exactly one warning carrying the documented text with the
referenced name and the record's uid substituted; the miss is never fatal. -/
theorem C5_fromdict_dangling_cs (d : List (String × JValue))
    (csm : List (String × CoordinateSystem)) (od : Option String)
    (xs : List JValue) (ps : List Point3d) (us : String) (nv cv : JValue)
    (s : String)
    (hval : dlookup d "val" = some (.arr xs)) (hps : parsePoints xs = .ok ps)
    (huid : dlookup d "uid" = some (.str us)) (hname : dlookup d "name" = some nv)
    (hcl : dlookup d "closed" = some cv)
    (hcs : dlookup d "coordinate_system" = some (.str s)) (hs : s ≠ "")
    (hmiss : dlookup csm s = none)
    (hattr : dlookup d "attributes" = none ∨
      ∃ cats entries, dlookup d "attributes" = some (.obj cats) ∧
        flattenAttrEntries cats = .ok entries) :
    ∃ b, Poly3d.fromdict d csm od =
        .ok (b,
          [s ++ " does not exist as a coordinate system, but is referenced for the annotation "
            ++ us ++ "."]) ∧
      b.coordinate_system = none := by
  rcases hattr with hattr | ⟨cats, entries, hattr, hflat⟩
  · refine ⟨⟨us, pyStr nv, ps, cv, [], none, none, od⟩, ?_, rfl⟩
    simp only [Poly3d.fromdict, hval, hps, huid, hname, hcl, hattr,
      csResolve, hcs, if_neg hs, hmiss, pyStr]
  · cases huri : dlookup (buildDict entries) "uri" with
    | some u =>
      refine ⟨⟨us, pyStr nv, ps, cv, ddelete (buildDict entries) "uri",
        none, some u, od⟩, ?_, rfl⟩
      simp only [Poly3d.fromdict, hval, hps, huid, hname, hcl, hattr,
        attrsApply, hflat, huri, csResolve, hcs, if_neg hs, hmiss, pyStr]
    | none =>
      refine ⟨⟨us, pyStr nv, ps, cv, buildDict entries, none, none, od⟩, ?_, rfl⟩
      simp only [Poly3d.fromdict, hval, hps, huid, hname, hcl, hattr,
        attrsApply, hflat, huri, csResolve, hcs, if_neg hs, hmiss, pyStr]

/-- The record referencing the coordinate system `csA` that the supplied
mapping does not contain, carrying an attributes substructure. -/
def recDanglingCs : List (String × JValue) :=
  [("uid", .str "u1"), ("name", .str "n1"), ("val", .arr []),
   ("closed", .bool false), ("coordinate_system", .str "csA"),
   ("attributes", .obj [("text", .arr
     [.obj [("name", .str "color"), ("val", .str "red")]])])]

/-- C5 witness: the dangling `csA` reference on a record with attributes. -/
theorem C5_fromdict_dangling_cs_witness :
    ∃ b, Poly3d.fromdict recDanglingCs [] none =
        .ok (b,
          ["csA does not exist as a coordinate system, but is referenced for the annotation u1."]) ∧
      b.coordinate_system = none :=
  C5_fromdict_dangling_cs recDanglingCs [] none [] [] "u1" (.str "n1")
    (.bool false) "csA" rfl rfl rfl rfl rfl rfl (by decide) rfl
    (Or.inr ⟨[("text", .arr [.obj [("name", .str "color"), ("val", .str "red")]])],
      [("color", .str "red")], rfl, rfl⟩)

/-- The aggregate view is the comprehension-built dict of all kind-group
entries in object order. -/
theorem annotations_eq_buildDict (f : Frame) :
    f.annotations = buildDict ((f.objects.map (fun kv => kv.2.poly3ds)).flatten) := by
  suffices h : ∀ (objs : List (String × ObjectData)) (acc : List (String × Poly3d)),
      objs.foldl (fun acc kv => kv.2.dictFields.foldl dictUpdate acc) acc
        = ((objs.map (fun kv => kv.2.poly3ds)).flatten).foldl
            (fun m kv => dinsert m kv.1 kv.2) acc by
    exact h f.objects []
  intro objs
  induction objs with
  | nil => intro acc; simp
  | cons kv rest ih =>
    intro acc
    simp only [List.foldl_cons, List.map_cons, List.flatten_cons, List.foldl_append]
    rw [← ih]
    rfl

/-- The attribute handling only rewrites the attribute mapping and the `uri`
field. -/
theorem attrsApply_preserves (base a2 : Poly3d) (av : JValue)
    (h : attrsApply base av = .ok a2) :
    a2.uid = base.uid ∧ a2.name = base.name ∧ a2.points = base.points ∧
    a2.closed = base.closed ∧ a2.coordinate_system = base.coordinate_system ∧
    a2.object_data = base.object_data := by
  cases av with
  | obj cats =>
    simp only [attrsApply] at h
    split at h
    next e he => exact absurd h (by simp)
    next entries hf =>
      split at h
      next u hu =>
        injection h with h2
        rw [← h2]
        exact ⟨rfl, rfl, rfl, rfl, rfl, rfl⟩
      next hu =>
        injection h with h2
        rw [← h2]
        exact ⟨rfl, rfl, rfl, rfl, rfl, rfl⟩
  | null => simp [attrsApply] at h
  | bool b => simp [attrsApply] at h
  | int n => simp [attrsApply] at h
  | str s => simp [attrsApply] at h
  | arr xs => simp [attrsApply] at h

/-- Any successful decode stores the record's raw `closed` value in the
entity. -/
theorem fromdict_closed_raw (d : List (String × JValue))
    (csm : List (String × CoordinateSystem)) (od : Option String)
    (b : Poly3d) (w : List String)
    (hok : Poly3d.fromdict d csm od = .ok (b, w)) :
    dlookup d "closed" = some b.closed := by
  cases hval : dlookup d "val" with
  | none => simp [Poly3d.fromdict, hval] at hok
  | some v =>
    cases v with
    | arr xs =>
      cases hp : parsePoints xs with
      | error e => simp [Poly3d.fromdict, hval, hp] at hok
      | ok ps =>
        cases huid : dlookup d "uid" with
        | none => simp [Poly3d.fromdict, hval, hp, huid] at hok
        | some uv =>
          cases hname : dlookup d "name" with
          | none => simp [Poly3d.fromdict, hval, hp, huid, hname] at hok
          | some nv =>
            cases hcl : dlookup d "closed" with
            | none => simp [Poly3d.fromdict, hval, hp, huid, hname, hcl] at hok
            | some cv =>
              cases hattr : dlookup d "attributes" with
              | none =>
                simp only [Poly3d.fromdict, hval, hp, huid, hname, hcl, hattr] at hok
                injection hok with h1
                injection h1 with hb hw
                rw [← hb]
              | some av =>
                simp only [Poly3d.fromdict, hval, hp, huid, hname, hcl, hattr] at hok
                split at hok
                next e he => exact absurd hok (by simp)
                next a2 ha =>
                  injection hok with h1
                  injection h1 with hb hw
                  have hc := (attrsApply_preserves _ a2 av ha).2.2.2.1
                  rw [← hb, hc]
    | null => simp [Poly3d.fromdict, hval] at hok
    | bool bb => simp [Poly3d.fromdict, hval] at hok
    | int n => simp [Poly3d.fromdict, hval] at hok
    | str s => simp [Poly3d.fromdict, hval] at hok
    | obj kvs => simp [Poly3d.fromdict, hval] at hok

/-- Every key of the optional-field record is `coordinate_system` or
`attributes`. -/
theorem optionalFieldsAsdict_keys (a : Poly3d) :
    ∀ k ∈ (optionalFieldsAsdict a).map Prod.fst,
      k = "coordinate_system" ∨ k = "attributes" := by
  intro k hk
  simp only [optionalFieldsAsdict, List.map_append, List.mem_append] at hk
  rcases hk with hk | hk
  · left
    cases hcs : a.coordinate_system <;> rw [hcs] at hk <;> simp_all
  · right
    split at hk <;> simp_all

/-- A base key is never shadowed by the optional-field record. -/
theorem dlookup_optionalFields_none (a : Poly3d) (k : String)
    (h1 : k ≠ "coordinate_system") (h2 : k ≠ "attributes") :
    dlookup (optionalFieldsAsdict a).reverse k = none := by
  rw [dlookup_eq_none_iff]
  intro hk
  rw [List.map_reverse, List.mem_reverse] at hk
  rcases optionalFieldsAsdict_keys a k hk with h | h
  · exact h1 h
  · exact h2 h

/-- Looking up one of the always-present keys in the encoded record reads the
base record written before the optional update. -/
theorem dlookup_asdict_of_base (a : Poly3d) (k : String)
    (h1 : k ≠ "coordinate_system") (h2 : k ≠ "attributes") :
    dlookup a.asdict k = dlookup
      [("uid", JValue.str a.uid), ("name", JValue.str a.name),
       ("closed", JValue.bool (pyBool a.closed)),
       ("val", JValue.arr (flattenPoints a.points))] k := by
  have hbase : dinsert (dinsert (requiredFieldsAsdict a) "closed"
        (JValue.bool (pyBool a.closed))) "val" (JValue.arr (flattenPoints a.points)) =
      [("uid", JValue.str a.uid), ("name", JValue.str a.name),
       ("closed", JValue.bool (pyBool a.closed)),
       ("val", JValue.arr (flattenPoints a.points))] := rfl
  simp only [Poly3d.asdict]
  rw [hbase, dlookup_foldl_dinsert, dlookup_optionalFields_none a k h1 h2]

/-- The encoded record always carries a boolean under `closed`. -/
theorem asdict_closed_bool (a : Poly3d) :
    dlookup a.asdict "closed" = some (.bool (pyBool a.closed)) := by
  rw [dlookup_asdict_of_base a "closed" (by decide) (by decide)]
  rfl

/-- The encoded record carries the flattened points under `val`. -/
theorem asdict_val_flatten (a : Poly3d) :
    dlookup a.asdict "val" = some (.arr (flattenPoints a.points)) := by
  rw [dlookup_asdict_of_base a "val" (by decide) (by decide)]
  rfl

/-- C7: the derived view merges, object by object and kind group by kind
group, all uid-to-entity bindings, the last processed binding winning on a
collision (for every key the view holds the last binding among the
concatenated group entries); the two-object frame with polylines keyed `a`
and `b` has exactly the two-entry view.  The view is recomputed from the
frame's stored fields and owns no state of its own. -/
theorem C7_frame_annotations_view :
    (∀ (f : Frame) (k : String),
      dlookup f.annotations k =
        dlookup ((f.objects.map (fun kv => kv.2.poly3ds)).flatten).reverse k) ∧
    (∀ (pa pb : Poly3d) (o1 o2 : String) (n : Int) (ts : Option Dec)
        (st : List (String × StreamReference)) (da : List (String × Num)),
      (Frame.mk n ts st da
          [(o1, ⟨o1, [("a", pa)]⟩), (o2, ⟨o2, [("b", pb)]⟩)]).annotations
        = [("a", pa), ("b", pb)]) := by
  constructor
  · intro f k
    rw [annotations_eq_buildDict, dlookup_buildDict]
  · intro pa pb o1 o2 n ts st da
    rfl

/-- The record storing the `closed` flag as the integer 1, and the entity it
decodes to. -/
def recClosedInt : List (String × JValue) :=
  [("uid", .str "u1"), ("name", .str "n1"), ("val", .arr []), ("closed", .int 1)]

/-- The entity decoded from `recClosedInt`: its `closed` field is the raw
integer. -/
def polyClosedInt : Poly3d :=
  { uid := "u1", name := "n1", points := [], closed := .int 1,
    attributes := [], coordinate_system := none, uri := none,
    object_data := none }

/-- C9 counterexample: the decode stores the raw record value of `closed`;
the integer 1 is not coerced to a boolean by `Poly3d.fromdict` (poly3d.py
line 86 copies the value unchanged). -/
theorem C9_closed_decode_not_boolean :
    Poly3d.fromdict recClosedInt [] none = .ok (polyClosedInt, []) ∧
    polyClosedInt.closed = .int 1 ∧
    JValue.int 1 ≠ JValue.bool true ∧ JValue.int 1 ≠ JValue.bool false :=
  ⟨rfl, rfl, by decide, by decide⟩

/-- C9 amended: the `closed` flag is coerced to a boolean by the encode
(`bool(self.closed)`, poly3d.py line 132), which always emits a boolean under
`closed`; the decode stores the record's `closed` value raw, with no
coercion. -/
theorem C9_closed_bool_encode_raw_decode (a : Poly3d) (d : List (String × JValue))
    (csm : List (String × CoordinateSystem)) (od : Option String)
    (b : Poly3d) (w : List String)
    (hok : Poly3d.fromdict d csm od = .ok (b, w)) :
    dlookup a.asdict "closed" = some (.bool (pyBool a.closed)) ∧
    dlookup d "closed" = some b.closed :=
  ⟨asdict_closed_bool a, fromdict_closed_raw d csm od b w hok⟩

/-- C9 amended witness: the integer-flagged record. -/
theorem C9_closed_bool_encode_raw_decode_witness :
    dlookup polyClosedInt.asdict "closed" = some (.bool true) ∧
    dlookup recClosedInt "closed" = some (.int 1) :=
  C9_closed_bool_encode_raw_decode polyClosedInt recClosedInt [] none
    polyClosedInt [] rfl

/-- The concrete geometry record of the spec example. -/
def recGeom : List (String × JValue) :=
  [("uid", .str "u1"), ("name", .str "n1"),
   ("val", .arr [.int 0, .int 0, .int 0, .int 1, .int 1, .int 1]),
   ("closed", .bool true)]

/-- The polyline with points (0,0,0) and (1,1,1). -/
def polyGeom : Poly3d :=
  { uid := "u1", name := "n1",
    points := [⟨.int 0, .int 0, .int 0⟩, ⟨.int 1, .int 1, .int 1⟩],
    closed := .bool true, attributes := [], coordinate_system := none,
    uri := none, object_data := none }

/-- C10: decoding `val = [0,0,0,1,1,1]` yields the points (0,0,0), (1,1,1) in
order and encoding that polyline emits `val = [0,0,0,1,1,1]`; in general the
decode repacks the flat sequence into consecutive triples and the encode
flattens the points back in order under `val`. -/
theorem C10_geometry_unpack_repack :
    Poly3d.fromdict recGeom [] none = .ok (polyGeom, []) ∧
    dlookup polyGeom.asdict "val" =
      some (.arr [.int 0, .int 0, .int 0, .int 1, .int 1, .int 1]) ∧
    (∀ ps : List Point3d, parsePoints (flattenPoints ps) = .ok ps) ∧
    (∀ a : Poly3d, dlookup a.asdict "val" = some (.arr (flattenPoints a.points))) :=
  ⟨rfl, rfl, parsePoints_flattenPoints, asdict_val_flatten⟩

/-- C6: when the flattened attributes of a record contain the key `uri`, the
decoded entity carries that value in its dedicated `uri` field, its attribute
mapping no longer contains `uri`, and every other flattened attribute is kept
under its name unchanged. -/
theorem C6_fromdict_uri_extraction (d : List (String × JValue))
    (csm : List (String × CoordinateSystem)) (od : Option String)
    (xs : List JValue) (ps : List Point3d) (uv nv cv : JValue)
    (cats entries : List (String × JValue)) (u : JValue)
    (hval : dlookup d "val" = some (.arr xs)) (hps : parsePoints xs = .ok ps)
    (huid : dlookup d "uid" = some uv) (hname : dlookup d "name" = some nv)
    (hcl : dlookup d "closed" = some cv)
    (hattr : dlookup d "attributes" = some (.obj cats))
    (hflat : flattenAttrEntries cats = .ok entries)
    (huri : dlookup (buildDict entries) "uri" = some u) :
    ∃ b w, Poly3d.fromdict d csm od = .ok (b, w) ∧ b.uri = some u ∧
      dlookup b.attributes "uri" = none ∧
      (∀ k, k ≠ "uri" → dlookup b.attributes k = dlookup (buildDict entries) k) := by
  have hrun : Poly3d.fromdict d csm od =
      .ok ({ uid := pyStr uv, name := pyStr nv, points := ps, closed := cv,
             attributes := ddelete (buildDict entries) "uri",
             coordinate_system := (csResolve d csm uv).1, uri := some u,
             object_data := od }, (csResolve d csm uv).2) := by
    simp only [Poly3d.fromdict, hval, hps, huid, hname, hcl, hattr, attrsApply,
      hflat, huri]
  refine ⟨_, _, hrun, rfl, ?_, ?_⟩
  · exact dlookup_ddelete_self (buildDict entries) "uri" (buildDict_nodup_keys entries)
  · intro k hk
    exact dlookup_ddelete_ne (buildDict entries) k "uri" hk

/-- The record whose flattened attributes contain `uri` and one ordinary
attribute. -/
def recUri : List (String × JValue) :=
  [("uid", .str "u1"), ("name", .str "n1"), ("val", .arr []),
   ("closed", .bool false),
   ("attributes", .obj [("text", .arr
     [.obj [("name", .str "uri"), ("val", .str "file://x")],
      .obj [("name", .str "color"), ("val", .str "red")]])])]

/-- C6 witness: `uri` is extracted from `recUri` and `color` is kept. -/
theorem C6_fromdict_uri_extraction_witness :
    ∃ b w, Poly3d.fromdict recUri [] none = .ok (b, w) ∧
      b.uri = some (.str "file://x") ∧
      dlookup b.attributes "uri" = none ∧
      (∀ k, k ≠ "uri" → dlookup b.attributes k =
        dlookup (buildDict [("uri", .str "file://x"), ("color", .str "red")]) k) :=
  C6_fromdict_uri_extraction recUri [] none [] [] (.str "u1") (.str "n1")
    (.bool false)
    [("text", .arr
      [.obj [("name", .str "uri"), ("val", .str "file://x")],
       .obj [("name", .str "color"), ("val", .str "red")]])]
    [("uri", .str "file://x"), ("color", .str "red")] (.str "file://x")
    rfl rfl rfl rfl rfl rfl rfl rfl

/-- Embedding the timestamp attribute value is injective. -/
theorem tsPVal_inj (a b : Option Dec) : tsPVal a = tsPVal b ↔ a = b := by
  cases a <;> cases b <;> simp [tsPVal]

/-- C8 amended: comparing two frames is structural field by field (no frame
field is itself a frame, so the uid-proxy branch of frame.py line 109 never
fires between genuine frames), and an object with a different number of
attributes compares unequal; but an object with the same number of attributes
under different names makes the comparison raise an attribute error instead
of returning false, so the comparison is not total on differently shaped
objects. -/
theorem C8_frame_eq_structural (f g : Frame) (other : List (String × PVal)) :
    frameEqVal f (.vFrame g) = .ok (decide (f = g)) ∧
    ((Frame.pyDict f).length ≠ other.length → frameEqDyn f other = .ok false) := by
  constructor
  · show frameEqDyn f (Frame.pyDict g) = .ok (decide (f = g))
    obtain ⟨fu, ft, fs, fd, fo⟩ := f
    obtain ⟨gu, gt, gs, gd, go⟩ := g
    cases ft with
    | none =>
      cases gt with
      | none =>
        by_cases h1 : fu = gu <;> by_cases h3 : fs = gs <;>
          by_cases h4 : fd = gd <;> by_cases h5 : fo = go <;>
          simp [frameEqDyn, frameEqLoop, Frame.pyDict, dlookup, tsPVal,
            Frame.mk.injEq, h1, h3, h4, h5]
      | some dg =>
        by_cases h1 : fu = gu <;>
          simp [frameEqDyn, frameEqLoop, Frame.pyDict, dlookup, tsPVal,
            Frame.mk.injEq, h1]
    | some df =>
      cases gt with
      | none =>
        by_cases h1 : fu = gu <;>
          simp [frameEqDyn, frameEqLoop, Frame.pyDict, dlookup, tsPVal,
            Frame.mk.injEq, h1]
      | some dg =>
        by_cases h1 : fu = gu <;> by_cases h2 : df = dg <;> by_cases h3 : fs = gs <;>
          by_cases h4 : fd = gd <;> by_cases h5 : fo = go <;>
          simp [frameEqDyn, frameEqLoop, Frame.pyDict, dlookup, tsPVal,
            Frame.mk.injEq, h1, h2, h3, h4, h5]
  · intro h
    simp [frameEqDyn, h]

/-- A frame with no optional content. -/
def frameEmpty : Frame :=
  { uid := 0, timestamp := none, streams := [], data := [], objects := [] }

/-- C8 witness: self-comparison is true; an object with a single attribute
(a different count) compares false. -/
theorem C8_frame_eq_structural_witness :
    frameEqVal frameEmpty (.vFrame frameEmpty) = .ok true ∧
    frameEqDyn frameEmpty [("uid", PVal.vInt 0)] = .ok false :=
  ⟨(C8_frame_eq_structural frameEmpty frameEmpty [("uid", PVal.vInt 0)]).1,
   (C8_frame_eq_structural frameEmpty frameEmpty [("uid", PVal.vInt 0)]).2 (by decide)⟩

/-- An object carrying the same number of attributes as a frame but one
unknown name. -/
def oddObj : List (String × PVal) :=
  [("uid", .vInt 0), ("timestamp", .vNone), ("streams", .vStreams []),
   ("data", .vData []), ("foo", .vNone)]

/-- C8 counterexample: an object of a different structural shape (same
attribute count, different attribute set) does not compare false: the access
to its missing `objects` attribute raises, refuting that the comparison never
raises an error on differently shaped objects. -/
theorem C8_frame_eq_raises :
    frameEqDyn frameEmpty oddObj = .error "AttributeError" := rfl

/-- The four category filters of the flattened attributes, concatenated in
category order. -/
def partitionEntries (l : List (String × JValue)) : List (String × JValue) :=
  l.filter (fun kv => isTextV kv.2) ++ l.filter (fun kv => isNumV kv.2)
    ++ l.filter (fun kv => isBoolV kv.2) ++ l.filter (fun kv => isVecV kv.2)

/-- Decoding an encoded attribute entry restores it. -/
theorem decodeAttrItem_encAttr (kv : String × JValue) :
    decodeAttrItem (encAttr kv) = .ok kv := rfl

/-- Decoding an encoded attribute list restores it. -/
theorem exceptMap_decode_encAttr (g : List (String × JValue)) :
    exceptMap decodeAttrItem (g.map encAttr) = .ok g := by
  induction g with
  | nil => rfl
  | cons kv rest ih => simp [exceptMap, decodeAttrItem_encAttr, ih]

/-- Decoding one category group restores its filter. -/
theorem exceptMap_decodeAttrCat_catGroup (c : String) (p : JValue → Bool)
    (l : List (String × JValue)) :
    exceptMap decodeAttrCat (catGroup c p l) =
      .ok (if (l.filter (fun kv => p kv.2)).isEmpty then []
           else [l.filter (fun kv => p kv.2)]) := by
  by_cases h : (l.filter (fun kv => p kv.2)).isEmpty <;>
    simp [catGroup, h, exceptMap, decodeAttrCat, exceptMap_decode_encAttr]

/-- Composing two successful comprehension runs. -/
theorem exceptMap_append_ok {α β : Type} (f : α → Except SchemaError β)
    (l1 l2 : List α) (ys1 ys2 : List β)
    (h1 : exceptMap f l1 = .ok ys1) (h2 : exceptMap f l2 = .ok ys2) :
    exceptMap f (l1 ++ l2) = .ok (ys1 ++ ys2) := by
  induction l1 generalizing ys1 with
  | nil =>
    simp only [exceptMap] at h1
    injection h1 with h1e
    subst h1e
    simpa
  | cons x rest ih =>
    simp only [exceptMap] at h1
    cases hf : f x with
    | error e => rw [hf] at h1; exact absurd h1 (by simp)
    | ok y =>
      rw [hf] at h1
      cases hr : exceptMap f rest with
      | error e => rw [hr] at h1; exact absurd h1 (by simp)
      | ok ys =>
        rw [hr] at h1
        injection h1 with h1e
        subst h1e
        simp [exceptMap, hf, ih ys hr]

/-- Flattening a category segment yields its group. -/
theorem flatten_ifsingle {α : Type} (g : List α) :
    (if g.isEmpty then ([] : List (List α)) else [g]).flatten = g := by
  cases g <;> simp

/-- Decoding the categorized attribute record restores the four filters in
category order. -/
theorem flattenAttrEntries_catGroups (l : List (String × JValue)) :
    flattenAttrEntries (catGroups l) = .ok (partitionEntries l) := by
  have h1 := exceptMap_decodeAttrCat_catGroup "text" isTextV l
  have h2 := exceptMap_decodeAttrCat_catGroup "num" isNumV l
  have h3 := exceptMap_decodeAttrCat_catGroup "boolean" isBoolV l
  have h4 := exceptMap_decodeAttrCat_catGroup "vec" isVecV l
  have h12 := exceptMap_append_ok decodeAttrCat _ _ _ _ h1 h2
  have h123 := exceptMap_append_ok decodeAttrCat _ _ _ _ h12 h3
  have h1234 := exceptMap_append_ok decodeAttrCat _ _ _ _ h123 h4
  simp only [flattenAttrEntries, catGroups, h1234]
  simp only [List.flatten_append, flatten_ifsingle]
  rfl

/-- Every representable attribute lands in exactly its category, so the
partition is a permutation of the flattened attributes. -/
theorem partitionEntries_perm (l : List (String × JValue))
    (hl : ∀ kv ∈ l, kindOk kv.2 = true) : (partitionEntries l).Perm l := by
  induction l with
  | nil => simp [partitionEntries]
  | cons kv rest ih =>
    have hk : kindOk kv.2 = true := hl kv (by simp)
    have ihr := ih (fun x hx => hl x (by simp [hx]))
    obtain ⟨k0, v0⟩ := kv
    have ihr2 : (List.filter (fun kv => isTextV kv.2) rest ++
        (List.filter (fun kv => isNumV kv.2) rest ++
          (List.filter (fun kv => isBoolV kv.2) rest ++
            List.filter (fun kv => isVecV kv.2) rest))).Perm rest := by
      simpa [partitionEntries, List.append_assoc] using ihr
    cases v0 with
    | str s =>
      simp only [partitionEntries, List.filter_cons, isTextV, isNumV, isBoolV, isVecV]
      simp only [decide_eq_true_eq, if_true, if_false, List.cons_append,
        List.append_assoc]
      exact List.Perm.cons _ ihr2
    | int n =>
      simp only [partitionEntries, List.filter_cons, isTextV, isNumV, isBoolV, isVecV]
      simp only [decide_eq_true_eq, if_true, if_false, List.cons_append,
        List.append_assoc]
      exact List.Perm.trans List.perm_middle (List.Perm.cons _ ihr2)
    | bool b =>
      simp only [partitionEntries, List.filter_cons, isTextV, isNumV, isBoolV, isVecV]
      simp only [decide_eq_true_eq, if_true, if_false, List.cons_append,
        List.append_assoc]
      refine List.Perm.trans (List.Perm.append_left _ List.perm_middle) ?_
      exact List.Perm.trans List.perm_middle (List.Perm.cons _ ihr2)
    | arr xs =>
      simp only [partitionEntries, List.filter_cons, isTextV, isNumV, isBoolV, isVecV]
      simp only [decide_eq_true_eq, if_true, if_false, List.cons_append,
        List.append_assoc]
      refine List.Perm.trans
        (List.Perm.append_left _ (List.Perm.append_left _ List.perm_middle)) ?_
      refine List.Perm.trans (List.Perm.append_left _ List.perm_middle) ?_
      exact List.Perm.trans List.perm_middle (List.Perm.cons _ ihr2)
    | null => simp [kindOk, isTextV, isNumV, isBoolV, isVecV] at hk
    | obj kvs => simp [kindOk, isTextV, isNumV, isBoolV, isVecV] at hk

/-- Permuting a dict with unique keys does not change lookups. -/
theorem dlookup_perm {α : Type} {l1 l2 : List (String × α)} (h : l1.Perm l2) :
    (l2.map Prod.fst).Nodup → ∀ k, dlookup l1 k = dlookup l2 k := by
  induction h with
  | nil => intro _ k; rfl
  | cons x hp ih =>
    intro hnd k
    obtain ⟨x1, x2⟩ := x
    simp only [List.map_cons, List.nodup_cons] at hnd
    by_cases hx : x1 = k <;> simp [dlookup, hx, ih hnd.2 k]
  | swap x y l =>
    intro hnd k
    obtain ⟨x1, x2⟩ := x
    obtain ⟨y1, y2⟩ := y
    simp only [List.map_cons, List.nodup_cons, List.mem_cons] at hnd
    have hxy : x1 ≠ y1 := fun hh => hnd.1 (Or.inl hh)
    by_cases hy : y1 = k
    · by_cases hx : x1 = k
      · exact absurd (hx.trans hy.symm) hxy
      · simp [dlookup, hx, hy]
    · by_cases hx : x1 = k <;> simp [dlookup, hx, hy]
  | trans hp1 hp2 ih1 ih2 =>
    intro hnd k
    have hnd2 := ((hp2.map Prod.fst).nodup_iff).mpr hnd
    exact (ih1 hnd2 k).trans (ih2 hnd k)

/-- A comprehension-built dict of entries with unique keys is the entry list
itself. -/
theorem buildDict_eq_self_of_nodup {α : Type} (l : List (String × α))
    (h : (l.map Prod.fst).Nodup) : buildDict l = l := by
  rw [buildDict, foldl_dinsert_eq_append l [] h (by simp)]
  rfl

/-- Two dicts with identical lookups everywhere are Python-equal. -/
theorem pyDictEq_of_lookup (l1 l2 : List (String × JValue))
    (h : ∀ k, dlookup l1 k = dlookup l2 k) : pyDictEq l1 l2 = true := by
  simp only [pyDictEq, List.all_eq_true]
  intro kv hkv
  rw [h kv.1]
  simp

/-- The encoded record carries the entity uid under `uid`. -/
theorem asdict_uid (a : Poly3d) : dlookup a.asdict "uid" = some (.str a.uid) := by
  rw [dlookup_asdict_of_base a "uid" (by decide) (by decide)]
  rfl

/-- The encoded record carries the entity name under `name`. -/
theorem asdict_name (a : Poly3d) : dlookup a.asdict "name" = some (.str a.name) := by
  rw [dlookup_asdict_of_base a "name" (by decide) (by decide)]
  rfl

/-- The encoded record carries the coordinate-system name exactly when the
reference is set. -/
theorem asdict_cs_lookup (a : Poly3d) :
    dlookup a.asdict "coordinate_system" =
      a.coordinate_system.map (fun c => JValue.str c.uid) := by
  simp only [Poly3d.asdict]
  rw [dlookup_foldl_dinsert]
  cases hc : a.coordinate_system with
  | none =>
    by_cases hB : (allAttrs a).isEmpty <;>
      simp [optionalFieldsAsdict, hc, hB, dlookup, dinsert, requiredFieldsAsdict]
  | some c =>
    by_cases hB : (allAttrs a).isEmpty <;>
      simp [optionalFieldsAsdict, hc, hB, dlookup, dinsert, requiredFieldsAsdict]

/-- The encoded record carries the categorized attribute substructure exactly
when there is something to carry. -/
theorem asdict_attrs_lookup (a : Poly3d) :
    dlookup a.asdict "attributes" =
      if (allAttrs a).isEmpty then none
      else some (attributesAsdict (allAttrs a)) := by
  simp only [Poly3d.asdict]
  rw [dlookup_foldl_dinsert]
  cases hc : a.coordinate_system with
  | none =>
    by_cases hB : (allAttrs a).isEmpty <;>
      simp [optionalFieldsAsdict, hc, hB, dlookup, dinsert, requiredFieldsAsdict]
  | some c =>
    by_cases hB : (allAttrs a).isEmpty <;>
      simp [optionalFieldsAsdict, hc, hB, dlookup, dinsert, requiredFieldsAsdict]

/-- C2: decoding the encoded record of a polyline entity restores an entity
Python-equal to the original with an empty warning list, whenever the entity
carries only schema-representable information: the closed flag is a boolean,
the non-schema back-reference is unset, the attribute names are unique and
none is the reserved `uri`, the attribute and uri values are of representable
kinds, and the referenced coordinate system, if set, is present in the
supplied mapping under its non-empty name. -/
theorem C2_poly3d_roundtrip (a : Poly3d) (csm : List (String × CoordinateSystem))
    (h1 : a.closed = JValue.bool (pyBool a.closed))
    (h2 : a.object_data = none)
    (h3 : (a.attributes.map Prod.fst).Nodup)
    (h4 : "uri" ∉ a.attributes.map Prod.fst)
    (h5 : ∀ kv ∈ a.attributes, kindOk kv.2 = true)
    (h6 : ∀ v, a.uri = some v → kindOk v = true)
    (h7 : ∀ c, a.coordinate_system = some c →
      c.uid ≠ "" ∧ dlookup csm c.uid = some c) :
    ∃ b, Poly3d.fromdict a.asdict csm none = .ok (b, []) ∧
      Poly3d.pyEquals a b = true := by
  have hval := asdict_val_flatten a
  have huid := asdict_uid a
  have hname := asdict_name a
  have hcl : dlookup a.asdict "closed" = some a.closed := by
    rw [asdict_closed_bool a, ← h1]
  have hcs := asdict_cs_lookup a
  have hattr := asdict_attrs_lookup a
  have hAllKinds : ∀ kv ∈ allAttrs a, kindOk kv.2 = true := by
    intro kv hkv
    rcases List.mem_append.mp hkv with hkv | hkv
    · exact h5 kv hkv
    · cases hu : a.uri with
      | none => simp [uriEntry, hu] at hkv
      | some v =>
        simp only [uriEntry, hu, List.mem_singleton] at hkv
        subst hkv
        exact h6 v hu
  have hkeys : ((allAttrs a).map Prod.fst).Nodup := by
    cases hu : a.uri with
    | none => simpa [allAttrs, uriEntry, hu] using h3
    | some v =>
      simp only [allAttrs, uriEntry, hu, List.map_append, List.map_cons,
        List.map_nil]
      rw [List.nodup_append]
      refine ⟨h3, List.nodup_singleton _, ?_⟩
      intro x hx hx2
      simp only [List.mem_singleton] at hx2
      exact h4 (hx2 ▸ hx)
  have hperm := partitionEntries_perm (allAttrs a) hAllKinds
  have hpkeys : ((partitionEntries (allAttrs a)).map Prod.fst).Nodup :=
    ((hperm.map Prod.fst).nodup_iff).mpr hkeys
  have hlookupPA : ∀ k, dlookup (partitionEntries (allAttrs a)) k =
      dlookup (allAttrs a) k := dlookup_perm hperm hkeys
  have hcsr : csResolve a.asdict csm (JValue.str a.uid) = (a.coordinate_system, []) := by
    cases hc : a.coordinate_system with
    | none => simp [csResolve, hcs, hc]
    | some c =>
      obtain ⟨hne, hfound⟩ := h7 c hc
      simp [csResolve, hcs, hc, hne, hfound]
  by_cases hE : (allAttrs a).isEmpty
  · -- no attribute substructure is emitted
    have hattrN : dlookup a.asdict "attributes" = none := by rw [hattr, if_pos hE]
    have hA0 : allAttrs a = [] := List.isEmpty_iff.mp hE
    obtain ⟨hAemp, hUE⟩ := List.append_eq_nil.mp hA0
    have hUnone : a.uri = none := by
      cases hu : a.uri with
      | none => rfl
      | some v => rw [uriEntry, hu] at hUE; exact absurd hUE (by simp)
    refine ⟨⟨a.uid, a.name, a.points, a.closed, [], a.coordinate_system,
      none, none⟩, ?_, ?_⟩
    · simp only [Poly3d.fromdict, hval, parsePoints_flattenPoints, huid, hname,
        hcl, hattrN, hcsr]
      rfl
    · have hpd : pyDictEq a.attributes [] = true := by
        rw [hAemp]
        exact pyDictEq_of_lookup [] [] (fun k => rfl)
      simp only [Poly3d.pyEquals, hpd, h2, hUnone]
      cases hc : a.coordinate_system <;> simp
  · -- the attribute substructure is emitted and decoded back
    have hattrS : dlookup a.asdict "attributes" =
        some (.obj (catGroups (allAttrs a))) := by
      rw [hattr, if_neg hE]
      rfl
    have hflat := flattenAttrEntries_catGroups (allAttrs a)
    have hbuild : buildDict (partitionEntries (allAttrs a)) =
        partitionEntries (allAttrs a) := buildDict_eq_self_of_nodup _ hpkeys
    have hlookups : ∀ k, dlookup (buildDict (partitionEntries (allAttrs a))) k =
        dlookup (allAttrs a) k := by
      intro k
      rw [hbuild]
      exact hlookupPA k
    cases hu : a.uri with
    | none =>
      have hAeq : allAttrs a = a.attributes := by simp [allAttrs, uriEntry, hu]
      have huriN : dlookup (buildDict (partitionEntries (allAttrs a))) "uri" = none := by
        rw [hlookups, hAeq]
        exact (dlookup_eq_none_iff _ _).mpr h4
      refine ⟨⟨a.uid, a.name, a.points, a.closed,
        buildDict (partitionEntries (allAttrs a)), a.coordinate_system,
        none, none⟩, ?_, ?_⟩
      · simp only [Poly3d.fromdict, hval, parsePoints_flattenPoints, huid, hname,
          hcl, hattrS, hcsr, attrsApply, hflat, huriN]
        rfl
      · have hpd : pyDictEq a.attributes
            (buildDict (partitionEntries (allAttrs a))) = true := by
          refine pyDictEq_of_lookup _ _ (fun k => ?_)
          rw [hlookups k, hAeq]
        simp only [Poly3d.pyEquals, hpd, h2, hu]
        cases hc : a.coordinate_system <;> simp
    | some v =>
      have hAeq : allAttrs a = a.attributes ++ [("uri", v)] := by
        simp [allAttrs, uriEntry, hu]
      have hAuriN : dlookup a.attributes "uri" = none :=
        (dlookup_eq_none_iff _ _).mpr h4
      have huriS : dlookup (buildDict (partitionEntries (allAttrs a))) "uri" =
          some v := by
        rw [hlookups, hAeq, dlookup_append_right _ _ _ hAuriN]
        rfl
      refine ⟨⟨a.uid, a.name, a.points, a.closed,
        ddelete (buildDict (partitionEntries (allAttrs a))) "uri",
        a.coordinate_system, some v, none⟩, ?_, ?_⟩
      · simp only [Poly3d.fromdict, hval, parsePoints_flattenPoints, huid, hname,
          hcl, hattrS, hcsr, attrsApply, hflat, huriS]
        rfl
      · have hpd : pyDictEq a.attributes
            (ddelete (buildDict (partitionEntries (allAttrs a))) "uri") = true := by
          refine pyDictEq_of_lookup _ _ (fun k => ?_)
          by_cases hk : k = "uri"
          · subst hk
            rw [hAuriN, dlookup_ddelete_self]
            rw [hbuild]
            exact hpkeys
          · rw [dlookup_ddelete_ne _ _ _ hk, hlookups k, hAeq]
            cases hak : dlookup a.attributes k with
            | some w => rw [dlookup_append_left _ _ _ _ hak]
            | none =>
              rw [dlookup_append_right _ _ _ hak]
              simp [dlookup, Ne.symm hk]
        simp only [Poly3d.pyEquals, hpd, h2, hu]
        cases hc : a.coordinate_system <;> simp

/-- A polyline entity exercising every optional field: a resolved coordinate
system, attributes of all four kinds, and a uri. -/
def polyRound : Poly3d :=
  { uid := "u1", name := "n1",
    points := [⟨.int 0, .int 1, .int 2⟩],
    closed := .bool true,
    attributes := [("vel", .int 5), ("col", .str "red"), ("ok2", .bool true),
      ("vec1", .arr [.int 1])],
    coordinate_system := some ⟨"csA"⟩,
    uri := some (.str "file://x"),
    object_data := none }

/-- C2 witness: the loaded entity round-trips through encode and decode. -/
theorem C2_poly3d_roundtrip_witness :
    ∃ b, Poly3d.fromdict polyRound.asdict [("csA", ⟨"csA"⟩)] none = .ok (b, []) ∧
      Poly3d.pyEquals polyRound b = true :=
  C2_poly3d_roundtrip polyRound [("csA", ⟨"csA"⟩)]
    (by decide) rfl (by decide) (by decide) (by decide)
    (fun v hv => by
      injection hv with h
      rw [← h]
      decide)
    (fun c hc => by
      injection hc with h
      rw [← h]
      exact ⟨by decide, rfl⟩)

end raillabel
